import Mathlib

/-!
Verification of the Web Song Maker playback scheduling engine.

This file shallowly embeds the playback scheduler, the audio helper layer and
the musical utility functions of the repository:

* `js/utilities.js` : `isNumberInRange`, `calculateNoteDuration`,
  `noteToFrequency`;
* `audio.js`        : `playNote`, `highlightColumn`;
* the main controller in `js/constants.js` : `getColumnDurationMs`,
  `playbackStep`, `startPlayback`, `stopPlayback`, and the tempo-input
  `change` listener.

Numbers computed by the JavaScript code are modelled exactly: millisecond
durations, tempos and audio-clock times become rationals (`ℚ`), semitone
offsets become integers (`ℤ`), and the equal-temperament frequency becomes a
real number (`ℝ`).  DOM and Web-Audio side effects are modelled as an explicit
list of `Effect` values emitted by each operation, and the set of columns
currently carrying the `playing-col` CSS class (on the column cells and the
matching ruler cell, which the code always toggles together) is carried in the
scheduler state as a `Finset ℕ`.
-/

deriving instance DecidableEq for Except

namespace SongMaker

/-- Observable side effects of the scheduler and the audio layer.  One
constructor per externally visible action performed by the JavaScript code:
creating/resuming the audio context, scheduling an oscillator voice,
console-error logging, user notification, toggling the `playing-col` class on
a column, arming / cancelling the `setTimeout` loop, setting the play button
label, and an uncaught exception escaping the call. -/
inductive Effect where
  | ensureAudio : Effect
  | voice (note : String) (semitones : Int) (startTime : ℚ) (waveType : String) : Effect
  | logError (msg : String) : Effect
  | notify (msg : String) : Effect
  | highlight (col : Nat) (isOn : Bool) : Effect
  | armTimer (delayMs : ℚ) : Effect
  | cancelTimer : Effect
  | setButtonText (label : String) : Effect
  | thrown (msg : String) : Effect
deriving DecidableEq

/-- The mutable playback state of the main controller (`appState` in
`js/constants.js`) together with the ambient inputs the scheduler reads fresh
on every step: the tempo input's current value (`bpm`), the waveform
selector's value, the audio clock reading, and the set of columns currently
highlighted with the `playing-col` class. -/
structure AppState where
  isPlaying : Bool
  currentColumn : Nat
  cols : Nat
  bpm : ℚ
  notes : List String
  gridState : List (List Bool)
  waveform : String
  audioTime : ℚ
  highlighted : Finset Nat
deriving DecidableEq

/-- From `js/utilities.js`: `isNumberInRange(value, min, max)` — true when the
value lies in the inclusive range.  (The JavaScript `NaN` check has no
counterpart for exact rationals.) -/
def isNumberInRange (value min max : ℚ) : Bool :=
  decide (min ≤ value) && decide (value ≤ max)

/-- From `js/utilities.js`: `calculateNoteDuration(bpm, subdivision)` — throws
unless `1 ≤ bpm ≤ 1000`, otherwise returns `((60 / bpm) * 1000) / subdivision`
milliseconds. -/
def calculateNoteDuration (bpm : ℚ) (subdivision : ℚ) : Except String ℚ :=
  if isNumberInRange bpm 1 1000 then
    Except.ok (60 / bpm * 1000 / subdivision)
  else
    Except.error "BPM must be a positive number"

/-- From the main controller in `js/constants.js`: `getColumnDurationMs()` —
reads the current tempo and returns
`calculateNoteDuration(bpm, AUDIO_CONFIG.NOTE_SUBDIVISION)` with the
subdivision constant equal to 4. -/
def getColumnDurationMs (bpm : ℚ) : Except String ℚ :=
  calculateNoteDuration bpm 4

/-- From `js/utilities.js`: the `noteMap` object literal inside
`noteToFrequency`, as an association list in source order. -/
def noteMap : List (String × Int) :=
  [("C", 0), ("C#", 1), ("D", 2), ("D#", 3), ("E", 4), ("F", 5),
   ("F#", 6), ("G", 7), ("G#", 8), ("A", 9), ("A#", 10), ("B", 11)]

/-- The comma-joined `Object.keys(noteMap)` fragment of the error message in
`noteToFrequency`. -/
def noteMapKeys : String :=
  String.intercalate ", " (noteMap.map (fun p => p.1))

/-- JavaScript `parseInt` applied to the single-character octave slice:
a decimal digit parses to its value, anything else gives `NaN` (here
`none`). -/
def parseOctaveChar (c : Char) : Option Nat :=
  if c.isDigit then some (c.toNat - 48) else none

/-- From `js/utilities.js`: `noteToFrequency(noteName)` up to (but excluding)
the final `440 * Math.pow(2, semitones / 12)`: validates the name, splits it
into `noteName.slice(0, -1)` and the last character, looks the pitch class up
in `noteMap`, parses and range-checks the octave, and returns the signed
semitone offset `(octave - 4) * 12 + noteMap[note] - noteMap["A"]` from A4.
Throws (`Except.error`) exactly where the source throws. -/
def noteToFrequencyCore (noteName : String) : Except String Int :=
  if noteName.data.isEmpty then
    Except.error "Invalid note name: must be a non-empty string"
  else
    let note := String.mk noteName.data.dropLast
    match noteName.data.getLast? with
    | none => Except.error "Invalid note name: must be a non-empty string"
    | some octChar =>
      match List.lookup note noteMap with
      | none =>
        Except.error ("Invalid note name: " ++ note ++ ". Must be one of: " ++ noteMapKeys)
      | some idx =>
        match parseOctaveChar octChar with
        | none =>
          Except.error ("Invalid octave: " ++ String.mk [octChar] ++
            ". Must be a number between 0 and 8")
        | some octave =>
          if octave > 8 then
            Except.error ("Invalid octave: " ++ String.mk [octChar] ++
              ". Must be a number between 0 and 8")
          else
            Except.ok (((octave : Int) - 4) * 12 + idx - 9)

/-- The final line of `noteToFrequency`: the equal-temperament frequency
`440 * 2 ^ (semitones / 12)` for a semitone offset from A4, as an exact
real number. -/
noncomputable def noteFreqOfSemitones (s : Int) : ℝ :=
  440 * (2 : ℝ) ^ ((s : ℝ) / 12)

/-- From `js/utilities.js`: `noteToFrequency(noteName)` — the semitone
computation followed by the frequency formula. -/
noncomputable def noteToFrequency (noteName : String) : Except String ℝ :=
  (noteToFrequencyCore noteName).map noteFreqOfSemitones

/-- From `audio.js`: `playNote(noteName, startTime, waveType)`.  The whole
body is wrapped in `try/catch`; an invalid note name makes `noteToFrequency`
throw, the `catch` block logs the error and shows a notification, and nothing
propagates to the caller.  On success one oscillator voice is scheduled at
`startTime` (its frequency is `noteFreqOfSemitones` of the recorded semitone
offset). -/
def playNote (noteName : String) (startTime : ℚ) (waveType : String) : List Effect :=
  match noteToFrequencyCore noteName with
  | Except.error e =>
    [Effect.logError ("Failed to play note: " ++ e),
     Effect.notify ("Failed to play note " ++ noteName)]
  | Except.ok semitones =>
    [Effect.voice noteName semitones startTime waveType]

/-- From `audio.js`: the state change of `highlightColumn(col, highlight,
gridInner, ruler)` on the set of `playing-col` columns.  When `col` is at
least `cellsPerRow` (the ruler's child count, i.e. the column count) the
function warns and returns without touching anything; otherwise
`classList.toggle("playing-col", highlight)` sets the class's presence on
every cell of the column and on its ruler cell. -/
def applyHighlight (col : Nat) (isOn : Bool) (cols : Nat) (hl : Finset Nat) : Finset Nat :=
  if col ≥ cols then hl
  else if isOn then insert col hl else hl.erase col

/-- From `audio.js`: the effect emitted by the same `highlightColumn` call
(nothing when the column index is out of range). -/
def highlightEffects (col : Nat) (isOn : Bool) (cols : Nat) : List Effect :=
  if col ≥ cols then [] else [Effect.highlight col isOn]

/-- The previous column `(currentColumn - 1 + cols) % cols` computed by
`playbackStep` (in ℕ, `currentColumn + cols - 1` agrees with the JavaScript
expression whenever `cols ≥ 1`). -/
def prevColumn (s : AppState) : Nat :=
  (s.currentColumn + s.cols - 1) % s.cols

/-- The note-playing loop of `playbackStep`: for every row index below
`notes.length` whose grid cell at the current column is truthy, call
`playNote(notes[row], now, waveForm)`.  An absent row or column reads as
`false` (JavaScript `undefined` is falsy). -/
def stepVoices (s : AppState) : List Effect :=
  ((List.range s.notes.length).map (fun row =>
    if (s.gridState.getD row []).getD s.currentColumn false then
      playNote (s.notes.getD row "") s.audioTime s.waveform
    else [])).flatten

/-- From the main controller in `js/constants.js`: `playbackStep()`.  Guard on
`isPlaying`; capture `now` from the (ensured) audio context; play the active
notes of the current column; un-highlight the previous column then highlight
the current one; advance `currentColumn` by one modulo `cols`; finally arm
`setTimeout(playbackStep, getColumnDurationMs())` — if the duration
computation throws, the exception escapes after the state was already
mutated and no timer is armed. -/
def playbackStep (s : AppState) : AppState × List Effect :=
  if s.isPlaying then
    let hl := applyHighlight s.currentColumn true s.cols
      (applyHighlight (prevColumn s) false s.cols s.highlighted)
    let s' := { s with currentColumn := (s.currentColumn + 1) % s.cols,
                       highlighted := hl }
    let es := Effect.ensureAudio :: stepVoices s
      ++ highlightEffects (prevColumn s) false s.cols
      ++ highlightEffects s.currentColumn true s.cols
    match getColumnDurationMs s.bpm with
    | Except.ok d => (s', es ++ [Effect.armTimer d])
    | Except.error msg => (s', es ++ [Effect.thrown msg])
  else (s, [])

/-- From the main controller in `js/constants.js`: `startPlayback()` — a
no-op while already playing; otherwise set `isPlaying`, ensure the audio
context, relabel the play button, reset `currentColumn` to 0 and execute one
`playbackStep()` synchronously. -/
def startPlayback (s : AppState) : AppState × List Effect :=
  if s.isPlaying then (s, [])
  else
    let s1 : AppState := { s with isPlaying := true, currentColumn := 0 }
    ((playbackStep s1).1,
      Effect.ensureAudio :: Effect.setButtonText "Stop" :: (playbackStep s1).2)

/-- The highlight-clearing loop of `stopPlayback`: `highlightColumn(c, false)`
for every `c` in the given list (the code iterates `0 ≤ c < cols`). -/
def clearHighlights : List Nat → Nat → Finset Nat → Finset Nat
  | [], _, hl => hl
  | c :: rest, cols, hl => clearHighlights rest cols (applyHighlight c false cols hl)

/-- The effects emitted by the same highlight-clearing loop. -/
def clearHighlightEffects (l : List Nat) (cols : Nat) : List Effect :=
  (l.map (fun c => highlightEffects c false cols)).flatten

/-- From the main controller in `js/constants.js`: `stopPlayback()` — a no-op
while not playing; otherwise clear `isPlaying`, cancel the pending timer with
`clearTimeout`, relabel the play button and remove the `playing-col` class
from every column. -/
def stopPlayback (s : AppState) : AppState × List Effect :=
  if s.isPlaying then
    ({ s with isPlaying := false,
              highlighted := clearHighlights (List.range s.cols) s.cols s.highlighted },
     Effect.cancelTimer :: Effect.setButtonText "Play"
       :: clearHighlightEffects (List.range s.cols) s.cols)
  else (s, [])

/-- From the `change` listener on the tempo input (the legacy controller
section of `js/constants.js`): when the tempo input's value changes to
`newBpm` during playback, the listener runs `clearTimeout(timerId)` followed
by a synchronous `playbackStep()`, which now reads the new tempo; while
stopped the listener does nothing (the input's new value is simply the one
the next step will read). -/
def tempoChanged (newBpm : ℚ) (s : AppState) : AppState × List Effect :=
  let s0 : AppState := { s with bpm := newBpm }
  if s0.isPlaying then
    ((playbackStep s0).1, Effect.cancelTimer :: (playbackStep s0).2)
  else (s0, [])

/-- The state reached after one timer callback fires. -/
def stepState (s : AppState) : AppState := (playbackStep s).1

/-- The state reached after `n` consecutive timer callbacks fire. -/
def stepN (n : Nat) (s : AppState) : AppState := stepState^[n] s

/-- The column played by each of `n` consecutive steps (each `playbackStep`
plays `currentColumn` and then advances it). -/
def stepTrace : Nat → AppState → List Nat
  | 0, _ => []
  | n + 1, s => s.currentColumn :: stepTrace n (stepState s)

/-- Number of `clearTimeout` cancellations among a list of effects. -/
def countCancels (es : List Effect) : Nat :=
  (es.filter (fun e => decide (e = Effect.cancelTimer))).length

/-- From `config.js`: the `ALL_NOTES` vocabulary, every note name the UI can
place in a grid row, from C8 down to A0. -/
def ALL_NOTES : List String :=
  ["C8",
   "B7", "A#7", "A7", "G#7", "G7", "F#7", "F7", "E7", "D#7", "D7", "C#7", "C7",
   "B6", "A#6", "A6", "G#6", "G6", "F#6", "F6", "E6", "D#6", "D6", "C#6", "C6",
   "B5", "A#5", "A5", "G#5", "G5", "F#5", "F5", "E5", "D#5", "D5", "C#5", "C5",
   "B4", "A#4", "A4", "G#4", "G4", "F#4", "F4", "E4", "D#4", "D4", "C#4", "C4",
   "B3", "A#3", "A3", "G#3", "G3", "F#3", "F3", "E3", "D#3", "D3", "C#3", "C3",
   "B2", "A#2", "A2", "G#2", "G2", "F#2", "F2", "E2", "D#2", "D2", "C#2", "C2",
   "B1", "A#1", "A1", "G#1", "G1", "F#1", "F1", "E1", "D#1", "D1", "C#1", "C1",
   "B0", "A#0", "A0"]

/-- The chromatic pitch classes within an octave, in semitone order (C = 0 up
to B = 11, the key order of `noteMap`); the claimed vocabulary of valid
pitch-class names. -/
def pitchClasses : List String :=
  noteMap.map (fun p => p.1)

/-- A concrete 8-note, 16-column playing session at 120 BPM with an empty
grid, used as the test fixture for concrete evaluations. -/
def exampleState : AppState :=
  { isPlaying := true
    currentColumn := 0
    cols := 16
    bpm := 120
    notes := ["C4", "B3", "A3", "G3", "F3", "E3", "D3", "C3"]
    gridState := List.replicate 8 (List.replicate 16 false)
    waveform := "sine"
    audioTime := 0
    highlighted := ∅ }

/-- The fixture after three steps have already run: playing, cursor at
column 3. -/
def exampleStateAt3 : AppState := { exampleState with currentColumn := 3 }

/-- A stopped fixture with no highlight. -/
def stoppedState : AppState := { exampleState with isPlaying := false }

/-- States reachable from a freshly initialized session (stopped, cursor at
0, nothing highlighted, a positive column count) by any sequence of
`startPlayback`, timer-fired `playbackStep` callbacks and `stopPlayback`,
with the ambient inputs (tempo, grid contents, waveform, audio clock) free to
change between operations. -/
inductive Reachable : AppState → Prop
  | init (s : AppState) :
      s.isPlaying = false → s.highlighted = ∅ → s.currentColumn = 0 →
      0 < s.cols → Reachable s
  | start {s : AppState} : Reachable s → Reachable (startPlayback s).1
  | step {s : AppState} : Reachable s → Reachable (playbackStep s).1
  | stop {s : AppState} : Reachable s → Reachable (stopPlayback s).1
  | env {s : AppState} (b : ℚ) (g : List (List Bool)) (w : String) (t : ℚ) :
      Reachable s →
      Reachable { s with bpm := b, gridState := g, waveform := w, audioTime := t }

/-- The inductive invariant of the highlight machinery: the column count is
positive, the cursor is in range, at most the most recently played column
(the predecessor of the cursor) is highlighted, and nothing is highlighted
while stopped. -/
def HighlightInv (s : AppState) : Prop :=
  0 < s.cols ∧ s.currentColumn < s.cols ∧
  s.highlighted ⊆ {prevColumn s} ∧
  (s.isPlaying = false → s.highlighted = ∅)

/-! ### Helper lemmas about the scheduler operations -/

theorem getColumnDurationMs_ok (b : ℚ) (h1 : 1 ≤ b) (h2 : b ≤ 1000) :
    getColumnDurationMs b = Except.ok (60000 / b / 4) := by
  have hb : b ≠ 0 := by intro h; rw [h] at h1; norm_num at h1
  unfold getColumnDurationMs calculateNoteDuration isNumberInRange
  rw [if_pos (by simp [h1, h2])]
  congr 1
  field_simp
  ring

theorem playbackStep_of_not_playing (s : AppState) (h : s.isPlaying = false) :
    playbackStep s = (s, []) := by
  simp [playbackStep, h]

theorem playbackStep_playing_ok (s : AppState) (d : ℚ) (hp : s.isPlaying = true)
    (hd : getColumnDurationMs s.bpm = Except.ok d) :
    playbackStep s =
      ({ s with currentColumn := (s.currentColumn + 1) % s.cols,
                highlighted := applyHighlight s.currentColumn true s.cols
                  (applyHighlight (prevColumn s) false s.cols s.highlighted) },
       Effect.ensureAudio :: (stepVoices s
         ++ highlightEffects (prevColumn s) false s.cols
         ++ highlightEffects s.currentColumn true s.cols
         ++ [Effect.armTimer d])) := by
  simp [playbackStep, hp, hd]

theorem playbackStep_state (s : AppState) (hp : s.isPlaying = true) :
    (playbackStep s).1 =
      { s with currentColumn := (s.currentColumn + 1) % s.cols,
               highlighted := applyHighlight s.currentColumn true s.cols
                 (applyHighlight (prevColumn s) false s.cols s.highlighted) } := by
  unfold playbackStep
  rw [if_pos hp]
  cases hd : getColumnDurationMs s.bpm <;> simp

theorem playbackStep_isPlaying (s : AppState) :
    (playbackStep s).1.isPlaying = s.isPlaying := by
  cases hp : s.isPlaying
  · simp [playbackStep_of_not_playing s hp, hp]
  · unfold playbackStep
    rw [if_pos hp]
    cases hd : getColumnDurationMs s.bpm <;> simp [hp]

/-! ### Highlight bookkeeping lemmas -/

theorem erase_of_subset_singleton {A : Finset Nat} {p : Nat} (h : A ⊆ {p}) :
    A.erase p = ∅ := by
  apply Finset.eq_empty_iff_forall_not_mem.mpr
  intro x hx
  exact (Finset.ne_of_mem_erase hx)
    (Finset.mem_singleton.mp (h (Finset.mem_of_mem_erase hx)))

theorem eq_empty_of_subset_singleton {A : Finset Nat} {p : Nat}
    (h : A ⊆ {p}) (hp : p ∉ A) : A = ∅ := by
  apply Finset.eq_empty_iff_forall_not_mem.mpr
  intro x hx
  exact hp ((Finset.mem_singleton.mp (h hx)) ▸ hx)

theorem applyHighlight_false_subset (c cols : Nat) (hl : Finset Nat) :
    applyHighlight c false cols hl ⊆ hl := by
  unfold applyHighlight
  split
  · exact Finset.Subset.refl hl
  · simpa using Finset.erase_subset c hl

theorem clearHighlights_subset (l : List Nat) (cols : Nat) (hl : Finset Nat) :
    clearHighlights l cols hl ⊆ hl := by
  induction l generalizing hl with
  | nil => simp [clearHighlights]
  | cons c rest ih =>
    exact (ih (applyHighlight c false cols hl)).trans
      (applyHighlight_false_subset c cols hl)

theorem not_mem_clearHighlights (l : List Nat) (cols : Nat) (hl : Finset Nat)
    (c : Nat) (hc : c ∈ l) (hlt : c < cols) : c ∉ clearHighlights l cols hl := by
  induction l generalizing hl with
  | nil => cases hc
  | cons x rest ih =>
    rcases List.mem_cons.mp hc with rfl | hmem
    · intro habs
      rw [clearHighlights] at habs
      have hmem2 : c ∈ applyHighlight c false cols hl :=
        clearHighlights_subset rest cols _ habs
      rw [applyHighlight, if_neg (by omega)] at hmem2
      simp at hmem2
    · intro habs
      rw [clearHighlights] at habs
      exact ih _ hmem habs

theorem clearHighlights_range_empty (cols : Nat) (hl : Finset Nat) (p : Nat)
    (hsub : hl ⊆ {p}) (hp : p < cols) :
    clearHighlights (List.range cols) cols hl = ∅ :=
  eq_empty_of_subset_singleton ((clearHighlights_subset _ _ _).trans hsub)
    (not_mem_clearHighlights _ _ _ p (List.mem_range.mpr hp) hp)

theorem prev_of_advance (c n : Nat) (h1 : 0 < n) (h2 : c < n) :
    ((c + 1) % n + n - 1) % n = c := by
  rcases Nat.lt_or_ge (c + 1) n with h | h
  · rw [Nat.mod_eq_of_lt h]
    have he : c + 1 + n - 1 = c + n := by omega
    rw [he, Nat.add_mod_right, Nat.mod_eq_of_lt h2]
  · have he : c + 1 = n := by omega
    have h3 : n - 1 < n := by omega
    have h4 : (0 : Nat) + n - 1 = n - 1 := by omega
    rw [he, Nat.mod_self, h4, Nat.mod_eq_of_lt h3]
    omega

/-! ### The highlight invariant is preserved by every operation -/

theorem highlightInv_step (s : AppState) (h : HighlightInv s) :
    HighlightInv (playbackStep s).1 := by
  obtain ⟨h1, h2, h3, h4⟩ := h
  cases hp : s.isPlaying
  · rw [playbackStep_of_not_playing s hp]; exact ⟨h1, h2, h3, h4⟩
  · have hprev : prevColumn s < s.cols := Nat.mod_lt _ h1
    have hclt : s.currentColumn < s.cols := h2
    have hha : applyHighlight (prevColumn s) false s.cols s.highlighted = ∅ := by
      rw [applyHighlight, if_neg (by omega)]
      simpa using erase_of_subset_singleton h3
    have hhb : applyHighlight s.currentColumn true s.cols
        (applyHighlight (prevColumn s) false s.cols s.highlighted) =
        {s.currentColumn} := by
      rw [hha, applyHighlight, if_neg (by omega)]
      simp
    have hhb' := hhb
    simp only [prevColumn] at hhb'
    rw [playbackStep_state s hp]
    refine ⟨h1, Nat.mod_lt _ h1, ?_, ?_⟩
    · simp only [prevColumn]
      rw [prev_of_advance s.currentColumn s.cols h1 hclt, hhb']
    · intro hfalse
      simp [hp] at hfalse

theorem highlightInv_start (s : AppState) (h : HighlightInv s) :
    HighlightInv (startPlayback s).1 := by
  cases hp : s.isPlaying
  · have h4 : s.highlighted = ∅ := h.2.2.2 hp
    unfold startPlayback
    rw [if_neg (by simp [hp])]
    apply highlightInv_step
    exact ⟨h.1, h.1, by simp [h4], fun _ => h4⟩
  · unfold startPlayback
    rw [if_pos hp]
    exact h

theorem highlightInv_stop (s : AppState) (h : HighlightInv s) :
    HighlightInv (stopPlayback s).1 := by
  cases hp : s.isPlaying
  · unfold stopPlayback
    rw [if_neg (by simp [hp])]
    exact h
  · unfold stopPlayback
    rw [if_pos hp]
    have hempty : clearHighlights (List.range s.cols) s.cols s.highlighted = ∅ :=
      clearHighlights_range_empty s.cols s.highlighted (prevColumn s) h.2.2.1
        (Nat.mod_lt _ h.1)
    exact ⟨h.1, h.2.1, by simp [HighlightInv, prevColumn, hempty], fun _ => by simp [hempty]⟩

theorem reachable_inv (s : AppState) (hr : Reachable s) : HighlightInv s := by
  induction hr with
  | init s hp hh hc hcols =>
    exact ⟨hcols, by omega, by simp [hh], fun _ => hh⟩
  | start _ ih => exact highlightInv_start _ ih
  | step _ ih => exact highlightInv_step _ ih
  | stop _ ih => exact highlightInv_stop _ ih
  | env b g w t _ ih =>
    exact ⟨ih.1, ih.2.1, by simpa [prevColumn] using ih.2.2.1, fun hf => ih.2.2.2 hf⟩

/-! ### More helper lemmas: stopPlayback and effect counting -/

theorem stopPlayback_of_not_playing (s : AppState) (h : s.isPlaying = false) :
    stopPlayback s = (s, []) := by
  unfold stopPlayback
  rw [if_neg (by simp [h])]

theorem stopPlayback_isStopped (s : AppState) :
    (stopPlayback s).1.isPlaying = false := by
  cases hp : s.isPlaying
  · rw [stopPlayback_of_not_playing s hp]; exact hp
  · unfold stopPlayback
    rw [if_pos hp]

theorem countCancels_highlightEffects (c : Nat) (bq : Bool) (cols : Nat) :
    countCancels (highlightEffects c bq cols) = 0 := by
  unfold highlightEffects countCancels
  split <;> simp

theorem countCancels_clearHighlightEffects (l : List Nat) (cols : Nat) :
    countCancels (clearHighlightEffects l cols) = 0 := by
  induction l with
  | nil => rfl
  | cons c rest ih =>
    have hc := countCancels_highlightEffects c false cols
    unfold clearHighlightEffects countCancels at hc ih ⊢
    simp only [List.map_cons, List.flatten_cons, List.filter_append,
      List.length_append]
    omega

/-! ### Claim C1: the column-duration formula -/

/-- C1: for every integer bpm with `1 ≤ bpm ≤ 1000`, the per-step column
duration computed by the scheduler (`getColumnDurationMs`, which calls
`calculateNoteDuration bpm 4`) equals exactly `60000 / bpm / 4` milliseconds;
in particular it returns 125 for 120 BPM and 250 for 60 BPM, and every step
arms its timer with the duration recomputed from the tempo current at that
step rather than a stored value. -/
theorem column_duration_formula (bpm : ℕ) (h1 : 1 ≤ bpm) (h2 : bpm ≤ 1000) :
    getColumnDurationMs (bpm : ℚ) = Except.ok (60000 / (bpm : ℚ) / 4) ∧
    getColumnDurationMs 120 = Except.ok 125 ∧
    getColumnDurationMs 60 = Except.ok 250 ∧
    (∀ s : AppState, s.isPlaying = true → s.bpm = (bpm : ℚ) →
      Effect.armTimer (60000 / (bpm : ℚ) / 4) ∈ (playbackStep s).2) := by
  have hq1 : (1 : ℚ) ≤ (bpm : ℚ) := by exact_mod_cast h1
  have hq2 : (bpm : ℚ) ≤ 1000 := by exact_mod_cast h2
  have hok := getColumnDurationMs_ok (bpm : ℚ) hq1 hq2
  refine ⟨hok, ?_, ?_, ?_⟩
  · norm_num [getColumnDurationMs, calculateNoteDuration, isNumberInRange]
  · norm_num [getColumnDurationMs, calculateNoteDuration, isNumberInRange]
  · intro s hp hbpm
    rw [playbackStep_playing_ok s (60000 / (bpm : ℚ) / 4) hp (by rw [hbpm]; exact hok)]
    simp

/-- Witness for C1 at 120 BPM, with the concrete playing fixture. -/
theorem column_duration_formula_witness :
    ((1 : ℕ) ≤ 120 ∧ (120 : ℕ) ≤ 1000) ∧
    (getColumnDurationMs ((120 : ℕ) : ℚ) = Except.ok (60000 / ((120 : ℕ) : ℚ) / 4) ∧
     getColumnDurationMs 120 = Except.ok 125 ∧
     getColumnDurationMs 60 = Except.ok 250 ∧
     (∀ s : AppState, s.isPlaying = true → s.bpm = ((120 : ℕ) : ℚ) →
       Effect.armTimer (60000 / ((120 : ℕ) : ℚ) / 4) ∈ (playbackStep s).2)) :=
  ⟨⟨by norm_num, by norm_num⟩, column_duration_formula 120 (by norm_num) (by norm_num)⟩

/-! ### Claim C3: each step advances the cursor by one, wrapping at cols -/

/-- C3: every `playbackStep` executed while playing advances `currentColumn`
to `(currentColumn + 1) % cols`; concretely, 16 consecutive steps of the
16-column fixture starting at column 0 play columns 0,1,…,15 in that order
(each exactly once, strictly increasing) and return the cursor to 0. -/
theorem step_advances_column (s : AppState) (hp : s.isPlaying = true) :
    (playbackStep s).1.currentColumn = (s.currentColumn + 1) % s.cols ∧
    stepTrace 16 exampleState = List.range 16 ∧
    (stepN 16 exampleState).currentColumn = 0 := by
  refine ⟨?_, by decide, by decide⟩
  rw [playbackStep_state s hp]

/-- Witness for C3 at the concrete playing fixture. -/
theorem step_advances_column_witness :
    exampleState.isPlaying = true ∧
    ((playbackStep exampleState).1.currentColumn =
      (exampleState.currentColumn + 1) % exampleState.cols ∧
     stepTrace 16 exampleState = List.range 16 ∧
     (stepN 16 exampleState).currentColumn = 0) :=
  ⟨rfl, step_advances_column exampleState rfl⟩

/-! ### Claim C4: start() is a no-op while playing, else resets and steps -/

/-- C4: `startPlayback` while already playing returns immediately — no state
change, no step, no second timer chain; while stopped it sets `isPlaying`,
resets `currentColumn` to 0 and synchronously executes one `playbackStep`,
which leaves the cursor at `1 % cols` and (for a valid tempo) arms the next
step's timer. -/
theorem start_playback_behavior (s : AppState) :
    (s.isPlaying = true → startPlayback s = (s, [])) ∧
    (s.isPlaying = false →
      startPlayback s =
        ((playbackStep { s with isPlaying := true, currentColumn := 0 }).1,
         Effect.ensureAudio :: Effect.setButtonText "Stop"
           :: (playbackStep { s with isPlaying := true, currentColumn := 0 }).2) ∧
      (startPlayback s).1.isPlaying = true ∧
      (startPlayback s).1.currentColumn = 1 % s.cols ∧
      (1 ≤ s.bpm → s.bpm ≤ 1000 →
        Effect.armTimer (60000 / s.bpm / 4) ∈ (startPlayback s).2)) := by
  constructor
  · intro hp
    unfold startPlayback
    rw [if_pos hp]
  · intro hp
    have heq : startPlayback s =
        ((playbackStep { s with isPlaying := true, currentColumn := 0 }).1,
         Effect.ensureAudio :: Effect.setButtonText "Stop"
           :: (playbackStep { s with isPlaying := true, currentColumn := 0 }).2) := by
      unfold startPlayback
      rw [if_neg (by simp [hp])]
    have hp1 : ({ s with isPlaying := true, currentColumn := 0 } : AppState).isPlaying
        = true := rfl
    refine ⟨heq, ?_, ?_, ?_⟩
    · rw [heq]
      simpa using playbackStep_isPlaying { s with isPlaying := true, currentColumn := 0 }
    · rw [heq]
      simp only []
      rw [playbackStep_state _ hp1]
    · intro hb1 hb2
      have hok : getColumnDurationMs
          ({ s with isPlaying := true, currentColumn := 0 } : AppState).bpm =
          Except.ok (60000 / s.bpm / 4) := getColumnDurationMs_ok s.bpm hb1 hb2
      rw [heq, playbackStep_playing_ok _ _ hp1 hok]
      simp

/-- Witness for C4 at the concrete stopped fixture. -/
theorem start_playback_behavior_witness :
    stoppedState.isPlaying = false ∧
    (startPlayback stoppedState =
      ((playbackStep { stoppedState with isPlaying := true, currentColumn := 0 }).1,
       Effect.ensureAudio :: Effect.setButtonText "Stop"
         :: (playbackStep { stoppedState with isPlaying := true, currentColumn := 0 }).2) ∧
     (startPlayback stoppedState).1.isPlaying = true ∧
     (startPlayback stoppedState).1.currentColumn = 1 % stoppedState.cols ∧
     Effect.armTimer (60000 / stoppedState.bpm / 4) ∈ (startPlayback stoppedState).2) := by
  have h := (start_playback_behavior stoppedState).2 rfl
  exact ⟨rfl, h.1, h.2.1, h.2.2.1, h.2.2.2 (by norm_num [stoppedState, exampleState])
    (by norm_num [stoppedState, exampleState])⟩

/-! ### Claim C5: stop() is idempotent -/

/-- C5: `stopPlayback` leaves the session stopped; a second call is a
complete no-op (no state change, no effects); across the two calls at most
one `clearTimeout` cancellation happens; and calling it while already
stopped changes nothing and cancels nothing. -/
theorem stop_playback_idempotent (s : AppState) :
    (stopPlayback s).1.isPlaying = false ∧
    (stopPlayback (stopPlayback s).1).1.isPlaying = false ∧
    stopPlayback (stopPlayback s).1 = ((stopPlayback s).1, []) ∧
    countCancels (stopPlayback s).2 +
      countCancels (stopPlayback (stopPlayback s).1).2 ≤ 1 ∧
    (s.isPlaying = false → stopPlayback s = (s, [])) := by
  have h1 := stopPlayback_isStopped s
  have hsecond := stopPlayback_of_not_playing _ h1
  refine ⟨h1, ?_, hsecond, ?_, stopPlayback_of_not_playing s⟩
  · rw [hsecond]; exact h1
  · rw [hsecond]
    cases hp : s.isPlaying
    · rw [stopPlayback_of_not_playing s hp]
      simp [countCancels]
    · unfold stopPlayback
      rw [if_pos hp]
      have hz := countCancels_clearHighlightEffects (List.range s.cols) s.cols
      unfold countCancels at hz ⊢
      simp [List.filter, hz]

/-- Witness for C5 at the concrete stopped fixture. -/
theorem stop_playback_idempotent_witness :
    stoppedState.isPlaying = false ∧
    ((stopPlayback stoppedState).1.isPlaying = false ∧
     (stopPlayback (stopPlayback stoppedState).1).1.isPlaying = false ∧
     stopPlayback (stopPlayback stoppedState).1 = ((stopPlayback stoppedState).1, []) ∧
     countCancels (stopPlayback stoppedState).2 +
       countCancels (stopPlayback (stopPlayback stoppedState).1).2 ≤ 1 ∧
     (stoppedState.isPlaying = false → stopPlayback stoppedState = (stoppedState, []))) :=
  ⟨rfl, stop_playback_idempotent stoppedState⟩

/-! ### Claim C7: after stop(), a fired callback is a silent no-op -/

/-- C7: the guard at the top of `playbackStep` makes any callback that fires
while the session is not playing a silent no-op — no voice, no highlight
change, no notification, no error; in particular a callback firing after
`stopPlayback` returns does nothing. -/
theorem stopped_step_silent (s : AppState) :
    (s.isPlaying = false → playbackStep s = (s, [])) ∧
    playbackStep (stopPlayback s).1 = ((stopPlayback s).1, []) :=
  ⟨playbackStep_of_not_playing s,
   playbackStep_of_not_playing _ (stopPlayback_isStopped s)⟩

/-- Witness for C7 at the concrete stopped fixture. -/
theorem stopped_step_silent_witness :
    stoppedState.isPlaying = false ∧
    playbackStep stoppedState = (stoppedState, []) ∧
    playbackStep (stopPlayback stoppedState).1 = ((stopPlayback stoppedState).1, []) :=
  ⟨rfl, (stopped_step_silent stoppedState).1 rfl, (stopped_step_silent stoppedState).2⟩

/-! ### Claim C2: tempo change during playback (corrected) -/

/-- C2 counterexample: in the concrete playing fixture at column 3, a tempo
change to 60 BPM leaves `currentColumn` at 4, not 3 — the listener runs
`playbackStep` synchronously, so the pending column is played immediately
(witnessed by the highlight effect emitted during the tempo change itself)
and the cursor advances during the edit, contradicting the claim that
`currentColumn` is unchanged and that the next step fires only after the new
duration. -/
theorem tempo_change_counterexample :
    exampleStateAt3.isPlaying = true ∧
    exampleStateAt3.currentColumn = 3 ∧
    (tempoChanged 60 exampleStateAt3).1.currentColumn = 4 ∧
    (tempoChanged 60 exampleStateAt3).1.currentColumn ≠ exampleStateAt3.currentColumn ∧
    Effect.highlight 3 true ∈ (tempoChanged 60 exampleStateAt3).2 :=
  ⟨rfl, rfl, by decide, by decide, by decide⟩

/-- C2 (amended): a tempo change while playing cancels the pending timer and
synchronously re-executes `playbackStep` with the new tempo: the pending
column plays immediately (not after either duration), `currentColumn`
advances by one modulo `cols` during the edit, and the timer armed for the
following step uses the new duration `60000 / newBpm / 4`. -/
theorem tempo_change_amended (s : AppState) (b : ℚ) (hp : s.isPlaying = true)
    (h1 : 1 ≤ b) (h2 : b ≤ 1000) :
    tempoChanged b s =
      ((playbackStep { s with bpm := b }).1,
        Effect.cancelTimer :: (playbackStep { s with bpm := b }).2) ∧
    (tempoChanged b s).1.currentColumn = (s.currentColumn + 1) % s.cols ∧
    Effect.armTimer (60000 / b / 4) ∈ (tempoChanged b s).2 := by
  have hps : ({ s with bpm := b } : AppState).isPlaying = true := hp
  have hok : getColumnDurationMs ({ s with bpm := b } : AppState).bpm =
      Except.ok (60000 / b / 4) := getColumnDurationMs_ok b h1 h2
  have heq : tempoChanged b s =
      ((playbackStep { s with bpm := b }).1,
        Effect.cancelTimer :: (playbackStep { s with bpm := b }).2) := by
    unfold tempoChanged
    rw [if_pos hps]
  refine ⟨heq, ?_, ?_⟩
  · rw [heq]
    simp only []
    rw [playbackStep_state _ hps]
  · rw [heq, playbackStep_playing_ok _ _ hps hok]
    simp

/-- Witness for the amended C2 at the concrete playing fixture. -/
theorem tempo_change_amended_witness :
    (exampleStateAt3.isPlaying = true ∧ (1 : ℚ) ≤ 60 ∧ (60 : ℚ) ≤ 1000) ∧
    (tempoChanged 60 exampleStateAt3 =
      ((playbackStep { exampleStateAt3 with bpm := 60 }).1,
        Effect.cancelTimer :: (playbackStep { exampleStateAt3 with bpm := 60 }).2) ∧
     (tempoChanged 60 exampleStateAt3).1.currentColumn =
       (exampleStateAt3.currentColumn + 1) % exampleStateAt3.cols ∧
     Effect.armTimer (60000 / 60 / 4) ∈ (tempoChanged 60 exampleStateAt3).2) :=
  ⟨⟨rfl, by norm_num, by norm_num⟩,
   tempo_change_amended exampleStateAt3 60 rfl (by norm_num) (by norm_num)⟩

/-! ### Claim C6: highlight exclusivity -/

/-- C6: in every state reachable by any sequence of `startPlayback`,
`playbackStep` and `stopPlayback` (with the tempo, grid, waveform and clock
free to change in between), at most one column carries the `playing-col`
highlight; each step executed while playing removes the highlight from the
previous column `(currentColumn - 1 + cols) % cols` and adds it to
`currentColumn`; and after `stopPlayback` returns, no column carries the
highlight. -/
theorem highlight_exclusivity (s : AppState) (hr : Reachable s) :
    s.highlighted.card ≤ 1 ∧
    (stopPlayback s).1.highlighted = ∅ ∧
    (s.isPlaying = true →
      (playbackStep s).1.highlighted =
        insert s.currentColumn (s.highlighted.erase (prevColumn s))) := by
  obtain ⟨h1, h2, h3, h4⟩ := reachable_inv s hr
  refine ⟨?_, ?_, ?_⟩
  · calc s.highlighted.card ≤ ({prevColumn s} : Finset Nat).card :=
        Finset.card_le_card h3
      _ = 1 := Finset.card_singleton _
  · cases hp : s.isPlaying
    · rw [stopPlayback_of_not_playing s hp]
      exact h4 hp
    · unfold stopPlayback
      rw [if_pos hp]
      simpa using clearHighlights_range_empty s.cols s.highlighted (prevColumn s)
        h3 (Nat.mod_lt _ h1)
  · intro hp
    have hprev : prevColumn s < s.cols := Nat.mod_lt _ h1
    have hc : ¬ s.currentColumn ≥ s.cols := by omega
    have hpv : ¬ prevColumn s ≥ s.cols := by omega
    rw [playbackStep_state s hp]
    simp [applyHighlight, hc, hpv]

/-- Witness for C6 at a freshly initialized (reachable) stopped fixture. -/
theorem highlight_exclusivity_witness :
    (stoppedState.isPlaying = false ∧ stoppedState.highlighted = ∅ ∧
     stoppedState.currentColumn = 0 ∧ 0 < stoppedState.cols) ∧
    (stoppedState.highlighted.card ≤ 1 ∧
     (stopPlayback stoppedState).1.highlighted = ∅ ∧
     (stoppedState.isPlaying = true →
       (playbackStep stoppedState).1.highlighted =
         insert stoppedState.currentColumn
           (stoppedState.highlighted.erase (prevColumn stoppedState)))) :=
  ⟨⟨rfl, rfl, rfl, by norm_num [stoppedState, exampleState]⟩,
   highlight_exclusivity stoppedState
     (Reachable.init stoppedState rfl rfl rfl (by norm_num [stoppedState, exampleState]))⟩

/-! ### Claim C8: the note-to-frequency formula -/

/-- C8: for every valid note name — a pitch class among C, C#, D, D#, E, F,
F#, G, G#, A, A#, B followed by a single octave digit 0–8 —
`noteToFrequency` returns `440 * 2 ^ (s / 12)` Hz, where
`s = (octave - 4) * 12 + (semitone index of the pitch class, C = 0) - 9` is
the signed semitone offset from A4; in particular `noteToFrequency "A4"`
is 440 Hz. -/
theorem noteToFrequency_formula (pc : String) (oct : ℕ)
    (hpc : pc ∈ pitchClasses) (hoct : oct ≤ 8) :
    noteToFrequency (pc ++ toString oct) =
      Except.ok (440 * (2 : ℝ) ^
        ((((((oct : ℤ) - 4) * 12 + (pitchClasses.indexOf pc : ℤ) - 9 : ℤ)) : ℝ) / 12)) ∧
    noteToFrequency "A4" = Except.ok 440 := by
  have key : ∀ p ∈ pitchClasses, ∀ o ∈ List.range 9,
      noteToFrequencyCore (p ++ toString o) =
        Except.ok (((o : ℤ) - 4) * 12 + (pitchClasses.indexOf p : ℤ) - 9) := by decide
  have hcore := key pc hpc oct (List.mem_range.mpr (by omega))
  have hA4 : noteToFrequencyCore "A4" = Except.ok 0 := by decide
  constructor
  · rw [noteToFrequency, hcore]
    rfl
  · rw [noteToFrequency, hA4]
    show Except.ok (noteFreqOfSemitones 0) = Except.ok (440 : ℝ)
    unfold noteFreqOfSemitones
    norm_num

/-- Witness for C8 at the note A4. -/
theorem noteToFrequency_formula_witness :
    ("A" ∈ pitchClasses ∧ (4 : ℕ) ≤ 8) ∧
    (noteToFrequency ("A" ++ toString (4 : ℕ)) =
      Except.ok (440 * (2 : ℝ) ^
        (((((((4 : ℕ) : ℤ) - 4) * 12 + (pitchClasses.indexOf "A" : ℤ) - 9 : ℤ)) : ℝ) / 12)) ∧
     noteToFrequency "A4" = Except.ok 440) :=
  ⟨⟨by decide, by decide⟩, noteToFrequency_formula "A" 4 (by decide) (by decide)⟩

/-! ### Claim C9: invalid notes are recovered per-voice -/

/-- C9: for every invalid note name (one `noteToFrequency` rejects),
`playNote` propagates no exception: the caught error is logged and surfaced
as a user notification only, and a playback step containing such a note
still schedules a voice for every other active row whose note is valid. -/
theorem stepVoices_subset_effects (s : AppState) (hp : s.isPlaying = true)
    (x : Effect) (hx : x ∈ stepVoices s) : x ∈ (playbackStep s).2 := by
  unfold playbackStep
  rw [if_pos hp]
  cases hd : getColumnDurationMs s.bpm <;> simp [hx]

theorem playNote_recovers_invalid (n : String) (t : ℚ) (w : String) (e : String)
    (he : noteToFrequencyCore n = Except.error e) :
    playNote n t w =
      [Effect.logError ("Failed to play note: " ++ e),
       Effect.notify ("Failed to play note " ++ n)] ∧
    (∀ s : AppState, ∀ row : ℕ, ∀ m : ℤ, s.isPlaying = true →
      row < s.notes.length →
      (s.gridState.getD row []).getD s.currentColumn false = true →
      noteToFrequencyCore (s.notes.getD row "") = Except.ok m →
      Effect.voice (s.notes.getD row "") m s.audioTime s.waveform
        ∈ (playbackStep s).2) := by
  constructor
  · simp [playNote, he]
  · intro s row m hp hrow hcell hok
    have hvoice : Effect.voice (s.notes.getD row "") m s.audioTime s.waveform
        ∈ stepVoices s := by
      unfold stepVoices
      apply List.mem_flatten.mpr
      refine ⟨playNote (s.notes.getD row "") s.audioTime s.waveform, ?_, ?_⟩
      · apply List.mem_map.mpr
        refine ⟨row, List.mem_range.mpr hrow, ?_⟩
        rw [if_pos hcell]
      · unfold playNote
        rw [hok]
        simp
    exact stepVoices_subset_effects s hp _ hvoice

/-- Witness for C9 at the invalid note name H4 inside a step that also
contains the valid note C4. -/
theorem playNote_recovers_invalid_witness :
    noteToFrequencyCore "H4" =
      Except.error ("Invalid note name: H. Must be one of: " ++ noteMapKeys) ∧
    (playNote "H4" 0 "sine" =
      [Effect.logError ("Failed to play note: " ++
         ("Invalid note name: H. Must be one of: " ++ noteMapKeys)),
       Effect.notify ("Failed to play note " ++ "H4")] ∧
     (∀ s : AppState, ∀ row : ℕ, ∀ m : ℤ, s.isPlaying = true →
       row < s.notes.length →
       (s.gridState.getD row []).getD s.currentColumn false = true →
       noteToFrequencyCore (s.notes.getD row "") = Except.ok m →
       Effect.voice (s.notes.getD row "") m s.audioTime s.waveform
         ∈ (playbackStep s).2)) :=
  ⟨by decide, playNote_recovers_invalid "H4" 0 "sine" _ (by decide)⟩

/-! ### Claim C10: the whole UI note vocabulary is valid -/

/-- C10: for every note name in `ALL_NOTES` (C8 down to A0), the error
branches of `noteToFrequency` are unreachable: it returns a strictly
positive (real, hence finite) frequency and never throws, so any grid built
from `ALL_NOTES` plays without hitting the invalid-note path. -/
theorem all_notes_never_throw (n : String) (hn : n ∈ ALL_NOTES) :
    ∃ f : ℝ, noteToFrequency n = Except.ok f ∧ 0 < f := by
  have key : ∀ m ∈ ALL_NOTES, (noteToFrequencyCore m).isOk = true := by decide
  cases hc : noteToFrequencyCore n with
  | error e =>
    have hk := key n hn
    rw [hc] at hk
    simp [Except.isOk, Except.toBool] at hk
  | ok sm =>
    refine ⟨noteFreqOfSemitones sm, ?_, ?_⟩
    · rw [noteToFrequency, hc]
      rfl
    · unfold noteFreqOfSemitones
      exact mul_pos (by norm_num) (Real.rpow_pos_of_pos (by norm_num) ((sm : ℝ) / 12))

/-- Witness for C10 at the highest note of the vocabulary, C8. -/
theorem all_notes_never_throw_witness :
    "C8" ∈ ALL_NOTES ∧
    (∃ f : ℝ, noteToFrequency "C8" = Except.ok f ∧ 0 < f) :=
  ⟨by decide, all_notes_never_throw "C8" (by decide)⟩

end SongMaker
